import Mathlib

/-!
Shallow embedding of the bluefox-email SDK request core
(`packages/api`: RateLimiter, BluefoxError, BluefoxModule) and the
webhook module (`packages/bluefox/src/bluefox.ts`: BluefoxWebhooks),
with theorems settling the frozen claims about retry policy, rate
limiting, error classification, validation and webhook handling.

JavaScript numbers that can be `NaN` or `Infinity` (the RateLimiter
fields and `parseInt` results) are modelled by the inductive `JsNum`;
ordinary bounded counters (HTTP status, attempt counts) are `Nat`.
Async effects are modelled by explicit outcome environments: one HTTP
attempt's outcome is a `FetchOutcome`, and a whole call consumes an
environment `Nat → FetchOutcome` giving the outcome of each attempt.
-/

namespace Bluefox

/-- JS number as used by the RateLimiter: `NaN`, `Infinity`, or an integer.
`parseInt` returns either `NaN` or an integer; the fields `limit` and
`remaining` are initialized to `Infinity`. -/
inductive JsNum where
  | nan
  | inf
  | int (n : Int)
deriving DecidableEq

/-- JS comparison `v <= 0`: false for `NaN` and `Infinity`. -/
def JsNum.le0 : JsNum → Bool
  | .nan => false
  | .inf => false
  | .int n => n ≤ 0

/-- JS comparison `now < v` where `now` is an integer (from `Date.now()`):
false when `v` is `NaN`, true when `v` is `Infinity`. -/
def JsNum.gtInt (v : JsNum) (now : Int) : Bool :=
  match v with
  | .nan => false
  | .inf => true
  | .int n => now < n

/-- JS multiplication by a natural constant (used for `* 1000` on the reset
header): `NaN * k = NaN`, `Infinity * k = Infinity` (the source only uses
`k = 1000`). -/
def JsNum.mulNat (v : JsNum) (k : Nat) : JsNum :=
  match v with
  | .nan => .nan
  | .inf => .inf
  | .int n => .int (n * (k : Int))

/-- Decimal rendering of a `JsNum`, standing in for JS number-to-string
coercion inside error messages (no claim depends on message text involving
numbers). -/
def JsNum.render : JsNum → String
  | .nan => "NaN"
  | .inf => "Infinity"
  | .int n => toString n

/-- JS whitespace test for the characters relevant here (`\s` of the email
regex and the leading trim of `parseInt`), restricted to ASCII whitespace. -/
def isJsWs (c : Char) : Bool :=
  c == ' ' || c == '\t' || c == '\n' || c == '\r' || c == '\x0b' || c == '\x0c'

/-- Value of a digit character. -/
def digitVal (c : Char) : Nat := c.toNat - '0'.toNat

/-- Accumulate a decimal digit list into a natural number. -/
def digitsToNat (ds : List Char) : Nat :=
  ds.foldl (fun acc c => acc * 10 + digitVal c) 0

/-- JS `parseInt(s, 10)`: skip leading whitespace, optional sign, then the
longest prefix of decimal digits; no digits gives `NaN`.  In particular
`parseInt("Infinity", 10) = NaN` since `I` is not a digit. -/
def jsParseInt (s : String) : JsNum :=
  let cs := s.toList.dropWhile isJsWs
  let signAndDigits : Int × List Char :=
    match cs with
    | '-' :: rest => (-1, rest)
    | '+' :: rest => (1, rest)
    | rest => (1, rest)
  let ds := signAndDigits.2.takeWhile Char.isDigit
  if ds.isEmpty then .nan
  else .int (signAndDigits.1 * (digitsToNat ds : Int))

/-- JS `opt || dflt` on an optional string: `undefined`/`null` and the empty
string are falsy and select the default. -/
def jsOrS (opt : Option String) (dflt : String) : String :=
  match opt with
  | some s => if s = "" then dflt else s
  | none => dflt

/-- Case-sensitive lookup in a header map (`headers[name]` on the plain
object the source builds with `Object.fromEntries`). -/
def lookupHeader (headers : List (String × String)) (name : String) : Option String :=
  (headers.find? (fun kv => kv.1 = name)).map Prod.snd

/-- Split a character list at every occurrence of a separator, keeping
empty groups, as JS `String.prototype.split` with a single-character
separator does. -/
def splitChars (sep : Char) : List Char → List (List Char)
  | [] => [[]]
  | c :: rest =>
    if c = sep then [] :: splitChars sep rest
    else
      match splitChars sep rest with
      | [] => [[c]]
      | group :: groups => (c :: group) :: groups

/-- JS `s.split(sep)` for a one-character separator: splits at every
occurrence, keeping empty pieces (`"".split(" ") = [""]`,
`"a  b".split(" ") = ["a", "", "b"]`). -/
def jsSplit (sep : Char) (s : String) : List String :=
  (splitChars sep s.toList).map (fun cs => String.mk cs)

/-- Substring occurrence test on character lists. -/
def containsSub (hay pat : List Char) : Bool :=
  match hay with
  | [] => pat.isEmpty
  | _ :: t => pat.isPrefixOf hay || containsSub t pat

/-- JS `s.includes(pat)` substring test. -/
def jsIncludes (s pat : String) : Bool :=
  containsSub s.toList pat.toList

/-- The `ErrorCode` enum of the api package. -/
inductive ErrorCode where
  | VALIDATION_ERROR
  | RATE_LIMIT_ERROR
  | AUTHENTICATION_ERROR
  | NETWORK_ERROR
  | TIMEOUT_ERROR
  | SERVER_ERROR
  | UNKNOWN_ERROR
  | METHOD_NOT_ALLOWED
  | DUPLICATE_EMAIL
  | INVALID_DATE
  | INSUFFICIENT_CREDITS
  | MISSING_AWS_CONFIG
  | MISSING_PARAMETERS
deriving DecidableEq

/-- Shape of a parsed JSON error body as far as `createErrorFromResponse`
inspects it: `errorData.error.name`, `errorData.error.message`, and the
top-level `errorData.message`.  `none` models an absent property. -/
structure ErrorBody where
  errorName : Option String := none
  errorMessage : Option String := none
  message : Option String := none
deriving DecidableEq

/-- The `details` payload attached to a `BluefoxError`, by provenance:
nothing, the `{reset}` object of `BluefoxError.rateLimit`, the parsed error
body of `createErrorFromResponse`, the `{request}` object of the webhook
validators, or the `{error}` object wrapping a caught exception. -/
inductive ErrDetails where
  | none
  | reset (t : JsNum)
  | body (b : ErrorBody)
  | request
  | caught
deriving DecidableEq

/-- The `BluefoxError` data (`code`, `message`, `status`, `details`). -/
structure BluefoxError where
  code : ErrorCode
  message : String
  status : Nat
  details : ErrDetails := .none
deriving DecidableEq

/-- `BluefoxError.validation(message)`: VALIDATION_ERROR with status 400. -/
def BluefoxError.validation (message : String) : BluefoxError :=
  { code := .VALIDATION_ERROR, message := message, status := 400 }

/-- `BluefoxError.rateLimit(reset)`: RATE_LIMIT_ERROR with status 429 and
`{reset}` in details.  The source renders the reset timestamp with
`new Date(reset).toISOString()`; the Date formatting is abstracted to a
decimal rendering, which no claim inspects. -/
def BluefoxError.rateLimit (reset : JsNum) : BluefoxError :=
  { code := .RATE_LIMIT_ERROR
    message := "Rate limit exceeded. Resets at " ++ reset.render
    status := 429
    details := .reset reset }

/-- State of the `RateLimiter` class: `limit` and `remaining` start at
`Infinity`, `reset` starts at `0` (epoch millis). -/
structure RateLimiter where
  limit : JsNum := .inf
  remaining : JsNum := .inf
  reset : JsNum := .int 0
deriving DecidableEq

/-- `RateLimiter.updateFromHeaders(headers)`: each field is re-assigned from
its header via `parseInt(headers[k] || fallback, 10)`; the fallback for
`limit`/`remaining` is `String(Infinity) = "Infinity"` (which parses to
`NaN`), the fallback for `reset` is `"0"`, and `reset` is scaled by 1000
(seconds to milliseconds). -/
def RateLimiter.updateFromHeaders (st : RateLimiter)
    (headers : List (String × String)) : RateLimiter :=
  { limit := jsParseInt (jsOrS (lookupHeader headers "x-ratelimit-limit") "Infinity")
    remaining := jsParseInt (jsOrS (lookupHeader headers "x-ratelimit-remaining") "Infinity")
    reset := (jsParseInt (jsOrS (lookupHeader headers "x-ratelimit-reset") "0")).mulNat 1000 }

/-- `RateLimiter.checkRateLimit()`: throws `BluefoxError.rateLimit(reset)`
when `remaining <= 0` and `Date.now() < reset`; otherwise returns normally.
The current time is an explicit argument; the returned `Option` is the
thrown error, `none` meaning normal return.  The method reads but never
writes the limiter state and performs no sleeping. -/
def RateLimiter.checkRateLimit (st : RateLimiter) (now : Int) : Option BluefoxError :=
  if st.remaining.le0 then
    if st.reset.gtInt now then some (BluefoxError.rateLimit st.reset)
    else none
  else none

/-- A raw HTTP response as seen by `performRequest`: status, statusText,
headers, and the outcome of `response.json()` (`none` models a body that is
not valid JSON, so that `json()` rejects).  Parsed bodies are represented by
the `ErrorBody` projection, the only part of a body the core inspects. -/
structure RawResponse where
  status : Nat
  statusText : String := ""
  headers : List (String × String) := []
  jsonBody : Option ErrorBody := none
deriving DecidableEq

/-- `Response.ok` of fetch: status in the inclusive range 200–299. -/
def RawResponse.ok (r : RawResponse) : Bool :=
  200 ≤ r.status && r.status ≤ 299

/-- A value thrown inside `performRequest` before normalization: an already
constructed `BluefoxError`, the `DOMException` with name `AbortError` raised
by the timeout, a generic JS `Error` carrying a message (a fetch network
failure or the `SyntaxError` of a failed `response.json()`), or a thrown
non-`Error` value. -/
inductive ThrownError where
  | bluefox (e : BluefoxError)
  | abort
  | jsError (msg : String)
  | nonError
deriving DecidableEq

/-- Outcome of one `fetch` call: rejection with a network error, abort by
the timeout controller, or a settled HTTP response. -/
inductive FetchOutcome where
  | netError (msg : String)
  | abort
  | response (r : RawResponse)
deriving DecidableEq

namespace BluefoxModule

/-- `getErrorCodeFromStatus(status)`: the status-to-code fallback mapping,
checked in source order. -/
def getErrorCodeFromStatus (status : Nat) : ErrorCode :=
  if status = 429 then .RATE_LIMIT_ERROR
  else if status = 401 ∨ status = 403 then .AUTHENTICATION_ERROR
  else if status = 405 then .METHOD_NOT_ALLOWED
  else if status = 400 then .VALIDATION_ERROR
  else if 500 ≤ status then .SERVER_ERROR
  else .UNKNOWN_ERROR

/-- The `errorData` value of `createErrorFromResponse`: the parsed JSON error
body, or `{message: response.statusText}` when the body fails to parse. -/
def effectiveBody (r : RawResponse) : ErrorBody :=
  match r.jsonBody with
  | some b => b
  | none => { message := some r.statusText }

/-- `createErrorFromResponse(response)` for a non-2xx response: when the body
carries a truthy `error.name`, a switch on the name and substrings of
`error.message || statusText` produces specific codes; otherwise (and on
fall-through) the status mapping applies with message
`error.message || message || statusText`. -/
def createErrorFromResponse (r : RawResponse) : BluefoxError :=
  let errorData := effectiveBody r
  let fallback : BluefoxError :=
    { code := getErrorCodeFromStatus r.status
      message := jsOrS errorData.errorMessage (jsOrS errorData.message r.statusText)
      status := r.status
      details := .body errorData }
  match errorData.errorName with
  | some errorName =>
    if errorName = "" then fallback
    else
      let errorMessage := jsOrS errorData.errorMessage r.statusText
      let mk : ErrorCode → BluefoxError := fun c =>
        { code := c, message := errorMessage, status := r.status, details := .body errorData }
      if errorName = "VALIDATION_ERROR" then
        if jsIncludes errorMessage "Email already exists" then mk .DUPLICATE_EMAIL
        else if jsIncludes errorMessage "pausedUntil date" then mk .INVALID_DATE
        else if jsIncludes errorMessage "AWS configurations not found" then mk .MISSING_AWS_CONFIG
        else if jsIncludes errorMessage "Missing required parameters" then mk .MISSING_PARAMETERS
        else if jsIncludes errorMessage "Triggered email not found" then mk .VALIDATION_ERROR
        else fallback
      else if errorName = "METHOD_NOT_ALLOWED" then
        if jsIncludes errorMessage "flagged due to bouncing" then mk .METHOD_NOT_ALLOWED
        else if jsIncludes errorMessage "Insufficient credits" then mk .INSUFFICIENT_CREDITS
        else fallback
      else fallback
  | none => fallback

/-- `normalizeError(error)`: `BluefoxError` passes through; an abort becomes
TIMEOUT_ERROR (status 408); any other thrown value becomes NETWORK_ERROR
(status 0) with the `Error`'s message, or a fixed message for non-`Error`
values. -/
def normalizeError : ThrownError → BluefoxError
  | .bluefox e => e
  | .abort => { code := .TIMEOUT_ERROR, message := "Request timeout exceeded", status := 408 }
  | .jsError msg => { code := .NETWORK_ERROR, message := msg, status := 0 }
  | .nonError => { code := .NETWORK_ERROR, message := "Network error occurred", status := 0 }

/-- `shouldRetry(error, attempt)`: retry only while strictly before the last
allowed attempt and only for SERVER_ERROR or NETWORK_ERROR.  The source
condition `attempt < this.maxRetries - 1` is written as
`attempt + 1 < maxRetries`, equal for every natural `maxRetries`. -/
def shouldRetry (maxRetries : Nat) (e : BluefoxError) (attempt : Nat) : Bool :=
  attempt + 1 < maxRetries &&
    (e.code = .SERVER_ERROR || e.code = .NETWORK_ERROR)

/-- `delay(attempt)` sleeps `Math.min(1000 * Math.pow(2, attempt), 10000)`
milliseconds; the returned value is that duration. -/
def delay (attempt : Nat) : Nat :=
  min (1000 * 2 ^ attempt) 10000

/-- Effective retry bound of the module constructor:
`context.config.maxRetries || 3` (an absent or zero configured value falls
back to the default 3). -/
def effMaxRetries (cfgMaxRetries : Option Nat) : Nat :=
  match cfgMaxRetries with
  | some m => if m = 0 then 3 else m
  | none => 3

/-- `performRequest(options)` given the fetch outcome of this attempt:
a rejected fetch or an abort re-throws; a settled non-2xx response throws
`createErrorFromResponse`; a 2xx response whose body fails to parse throws
the `SyntaxError` of `response.json()` (a generic `Error`); otherwise the
response is returned. -/
def performRequest (f : FetchOutcome) : Except ThrownError RawResponse :=
  match f with
  | .netError msg => .error (.jsError msg)
  | .abort => .error .abort
  | .response r =>
    if r.ok then
      match r.jsonBody with
      | some _ => .ok r
      | none => .error (.jsError "Unexpected end of JSON input")
    else .error (.bluefox (createErrorFromResponse r))

deriving instance DecidableEq for Except

/-- Observable trace of one `request`/`executeRequest` call: the final
result (`Except.error none` models the `lastError!` of a loop that never
ran), the number of network attempts performed, the backoff sleeps in
milliseconds in order, the header maps passed to
`RateLimiter.updateFromHeaders` in order, and the final limiter state. -/
structure ExecTrace where
  result : Except (Option BluefoxError) RawResponse
  attempts : Nat
  sleeps : List Nat
  rlUpdates : List (List (String × String))
  rl : RateLimiter
deriving DecidableEq

/-- One step shape of the response-interceptor: the source interceptor
receives the `HttpResponse` and may return a (possibly modified) response or
throw. -/
def RespInterceptor : Type := RawResponse → Except ThrownError RawResponse

/-- The retry loop body of `executeRequest`, fueled: `fuel` is
`maxRetries - attempt` so that `fuel = 0` is exactly the loop exit
`attempt < maxRetries` failing (which returns `lastError!`).  On a
successful attempt the limiter is updated from the response headers and the
optional response interceptor runs (its failure is terminal); on a thrown
attempt the error is normalized and either retried after `delay attempt`
milliseconds (when `shouldRetry`) or returned. -/
def executeRequestGo (respI : Option RespInterceptor) (maxRetries : Nat)
    (env : Nat → FetchOutcome) :
    Nat → Nat → RateLimiter → List Nat → List (List (String × String)) →
    Option BluefoxError → ExecTrace
  | 0, attempt, rl, sleeps, ups, lastErr =>
    { result := .error lastErr, attempts := attempt, sleeps := sleeps,
      rlUpdates := ups, rl := rl }
  | fuel + 1, attempt, rl, sleeps, ups, _lastErr =>
    match performRequest (env attempt) with
    | .ok r =>
      let rl' := rl.updateFromHeaders r.headers
      let ups' := ups ++ [r.headers]
      match respI with
      | none =>
        { result := .ok r, attempts := attempt + 1, sleeps := sleeps,
          rlUpdates := ups', rl := rl' }
      | some f =>
        match f r with
        | .ok r2 =>
          { result := .ok r2, attempts := attempt + 1, sleeps := sleeps,
            rlUpdates := ups', rl := rl' }
        | .error e =>
          { result := .error (some (normalizeError e)), attempts := attempt + 1,
            sleeps := sleeps, rlUpdates := ups', rl := rl' }
    | .error e =>
      let le := normalizeError e
      if shouldRetry maxRetries le attempt then
        executeRequestGo respI maxRetries env fuel (attempt + 1) rl
          (sleeps ++ [delay attempt]) ups (some le)
      else
        { result := .error (some le), attempts := attempt + 1, sleeps := sleeps,
          rlUpdates := ups, rl := rl }

/-- `executeRequest(options)`: the retry loop entered at `attempt = 0` with
the configured bound. -/
def executeRequest (respI : Option RespInterceptor) (maxRetries : Nat)
    (env : Nat → FetchOutcome) (rl : RateLimiter) : ExecTrace :=
  executeRequestGo respI maxRetries env maxRetries 0 rl [] [] none

/-- The headers with which attempt `k` would update the RateLimiter:
`some` of the response headers when the attempt's fetch produced a 2xx
response with a JSON-parseable body (the only case in which the source
reaches `updateFromHeaders`), `none` otherwise. -/
def successHeaders (env : Nat → FetchOutcome) (k : Nat) :
    Option (List (String × String)) :=
  match performRequest (env k) with
  | .ok r => some r.headers
  | .error _ => none

/-- `request(options)`: apply the request interceptor if configured (its
failure is normalized and returned with no attempt), then
`checkRateLimit` (its failure is returned with no attempt), then
`executeRequest`.  The request interceptor's effect on the options does not
influence any claim, so only its success-or-thrown outcome is modelled. -/
def request (reqI : Option (Except ThrownError Unit)) (respI : Option RespInterceptor)
    (cfgMaxRetries : Option Nat) (rl : RateLimiter) (now : Int)
    (env : Nat → FetchOutcome) : ExecTrace :=
  match reqI with
  | some (.error e) =>
    { result := .error (some (normalizeError e)), attempts := 0, sleeps := [],
      rlUpdates := [], rl := rl }
  | _ =>
    match rl.checkRateLimit now with
    | some e =>
      { result := .error (some (normalizeError (.bluefox e))), attempts := 0,
        sleeps := [], rlUpdates := [], rl := rl }
    | none => executeRequest respI (effMaxRetries cfgMaxRetries) env rl

/-- A JS value as tested for truthiness by `validateRequiredFields`:
strings (falsy iff empty), numbers (falsy iff 0 or NaN), booleans, non-null
objects and arrays (always truthy), `null` and `undefined` (falsy). -/
inductive JsValue where
  | str (s : String)
  | num (n : JsNum)
  | bool (b : Bool)
  | obj
  | null
  | undefined
deriving DecidableEq

/-- JS truthiness of a `JsValue`. -/
def JsValue.truthy : JsValue → Bool
  | .str s => !(s = "")
  | .num n =>
    match n with
    | .nan => false
    | .inf => true
    | .int m => !(m = 0)
  | .bool b => b
  | .obj => true
  | .null => false
  | .undefined => false

/-- `validateRequiredFields(fields)`: collect the keys whose value is falsy
(in object insertion order); when any exist, throw
`BluefoxError.validation` with a message joining them; otherwise return.
The returned `Option` is the thrown error. -/
def validateRequiredFields (fields : List (String × JsValue)) : Option BluefoxError :=
  let missingFields := (fields.filter (fun kv => !kv.2.truthy)).map Prod.fst
  if missingFields.length > 0 then
    some (BluefoxError.validation
      ("Missing required fields: " ++ String.intercalate ", " missingFields))
  else none

/-- Test of the anchored regex `^[^\s@]+@[^\s@]+\.[^\s@]+$` of
`validateEmail`: the string must contain no whitespace, exactly one `@`
splitting it into nonempty local and domain parts (a `[^\s@]+` block can
never contain `@`), and the domain must factor as `b ++ "." ++ c` with `b`
and `c` nonempty, i.e. contain a dot that is neither its first nor its last
character (dots are allowed inside the `[^\s@]+` blocks). -/
def emailRegexTest (s : String) : Bool :=
  (s.toList.all (fun c => !isJsWs c)) &&
    (match jsSplit '@' s with
     | [localPart, domain] =>
       !(localPart = "") && !(domain = "") &&
         ((domain.toList.drop 1).dropLast.contains '.')
     | _ => false)

/-- `validateEmail(email)`: throw `BluefoxError.validation` when the email
regex does not match. -/
def validateEmail (email : String) : Option BluefoxError :=
  if emailRegexTest email then none
  else some (BluefoxError.validation "Invalid email address format")

/-- The synchronous validation prefix of `BluefoxSubscriber.add`:
`validateRequiredFields({subscriberListId, name, email})` then
`validateEmail(email)`; the first thrown error aborts the call before any
request is made. -/
def subscriberAddValidation (subscriberListId name email : String) :
    Option BluefoxError :=
  match validateRequiredFields
      [("subscriberListId", .str subscriberListId),
       ("name", .str name), ("email", .str email)] with
  | some e => some e
  | none => validateEmail email

end BluefoxModule

/-- A parsed webhook event; the dispatcher only inspects `type` (a string
key into the handler map), the rest of the payload is opaque. -/
structure WebhookEvent where
  type : String
  payload : String := ""
deriving DecidableEq

/-- An inbound webhook request: the `Authorization` header
(`headers.get` returns `null`, modelled `none`, when absent) and the result
of `request.json()` (`none` when the body fails to parse). -/
structure WebhookRequest where
  authHeader : Option String := none
  body : Option WebhookEvent := none
deriving DecidableEq

namespace BluefoxWebhooks

open BluefoxModule

/-- The bearer-token extraction of `validateWebhook`:
`request.headers.get("Authorization")?.split(" ")[1]` — `none` when the
header is absent or has no second space-separated component, `some ""` when
the component is empty (for example a trailing space). -/
def headerApiKey (authHeader : Option String) : Option String :=
  match authHeader with
  | none => none
  | some h => (jsSplit ' ' h).get? 1

/-- The valid key set of `validateWebhook`: the rotation list when one is
passed (`options.validApiKeys || [primaryApiKey]`; a present list is truthy
even when empty), else the singleton of the primary key. -/
def validKeySet (primary : String) (validApiKeys : Option (List String)) :
    List String :=
  match validApiKeys with
  | some l => l
  | none => [primary]

/-- `BluefoxWebhooks.validateWebhook(options)` (the key-rotation variant of
`bluefox.ts`): primary key is `apiKeyOverride || config.apiKey`;
`validateRequiredFields({apiKey, request})` throws first when the primary
key is falsy (the request object is always truthy); a missing or empty
bearer token throws SERVER_ERROR with status 400; a token outside the valid
key set throws AUTHENTICATION_ERROR with status 400; otherwise the call
returns `true`. -/
def validateWebhook (configApiKey : String) (apiKeyOverride : Option String)
    (validApiKeys : Option (List String)) (req : WebhookRequest) :
    Except BluefoxError Bool :=
  let primaryApiKey := jsOrS apiKeyOverride configApiKey
  let keys := validKeySet primaryApiKey validApiKeys
  match validateRequiredFields
      [("apiKey", .str primaryApiKey), ("request", .obj)] with
  | some e => .error e
  | none =>
    match headerApiKey req.authHeader with
    | none =>
      .error { code := .SERVER_ERROR, message := "No API key found in request headers",
               status := 400, details := .request }
    | some tok =>
      if tok = "" then
        .error { code := .SERVER_ERROR, message := "No API key found in request headers",
                 status := 400, details := .request }
      else if keys.contains tok then .ok true
      else
        .error { code := .AUTHENTICATION_ERROR, message := "Invalid API key",
                 status := 400, details := .request }

/-- `parseWebhookEvent(request)`: return the JSON body as an event, or throw
SERVER_ERROR with status 400 when parsing fails. -/
def parseWebhookEvent (req : WebhookRequest) : Except BluefoxError WebhookEvent :=
  match req.body with
  | some e => .ok e
  | none =>
    .error { code := .SERVER_ERROR, message := "Failed to parse webhook event",
             status := 400, details := .caught }

/-- Observable outcome of `handleWebhook`: the returned event or propagated
error, whether a handler ran, and the handler error that was logged (and
swallowed), if any. -/
structure HandleOutcome where
  result : Except BluefoxError WebhookEvent
  handlerInvoked : Bool
  handlerErrorLogged : Option String
deriving DecidableEq

/-- A registered handler either completes or throws a value, modelled by its
message. -/
def Handler : Type := WebhookEvent → Except String Unit

/-- `handleWebhook(options)`: validate (failures propagate), parse (failures
propagate), then look up `handlers[event.type]`; when a handler exists it is
awaited inside a try/catch whose catch only logs — the event is returned
whether or not the handler throws, and untouched when no handler is
registered for the type. -/
def handleWebhook (configApiKey : String) (apiKeyOverride : Option String)
    (validApiKeys : Option (List String)) (handlers : String → Option Handler)
    (req : WebhookRequest) : HandleOutcome :=
  match validateWebhook configApiKey apiKeyOverride validApiKeys req with
  | .error e => { result := .error e, handlerInvoked := false, handlerErrorLogged := none }
  | .ok _ =>
    match parseWebhookEvent req with
    | .error e => { result := .error e, handlerInvoked := false, handlerErrorLogged := none }
    | .ok event =>
      match handlers event.type with
      | none => { result := .ok event, handlerInvoked := false, handlerErrorLogged := none }
      | some h =>
        match h event with
        | .ok _ =>
          { result := .ok event, handlerInvoked := true, handlerErrorLogged := none }
        | .error msg =>
          { result := .ok event, handlerInvoked := true, handlerErrorLogged := some msg }

end BluefoxWebhooks

namespace BluefoxModule

theorem go_succ (respI : Option RespInterceptor) (maxRetries : Nat)
    (env : Nat → FetchOutcome) (fuel attempt : Nat) (rl : RateLimiter)
    (sleeps : List Nat) (ups : List (List (String × String)))
    (lastErr : Option BluefoxError) :
    executeRequestGo respI maxRetries env (fuel + 1) attempt rl sleeps ups lastErr =
      match performRequest (env attempt) with
      | .ok r =>
        let rl2 := rl.updateFromHeaders r.headers
        let ups2 := ups ++ [r.headers]
        match respI with
        | none =>
          { result := .ok r, attempts := attempt + 1, sleeps := sleeps,
            rlUpdates := ups2, rl := rl2 }
        | some f =>
          match f r with
          | .ok r2 =>
            { result := .ok r2, attempts := attempt + 1, sleeps := sleeps,
              rlUpdates := ups2, rl := rl2 }
          | .error e =>
            { result := .error (some (normalizeError e)), attempts := attempt + 1,
              sleeps := sleeps, rlUpdates := ups2, rl := rl2 }
      | .error e =>
        let le := normalizeError e
        if shouldRetry maxRetries le attempt then
          executeRequestGo respI maxRetries env fuel (attempt + 1) rl
            (sleeps ++ [delay attempt]) ups (some le)
        else
          { result := .error (some le), attempts := attempt + 1, sleeps := sleeps,
            rlUpdates := ups, rl := rl } := rfl

theorem go_attempts_le (respI : Option RespInterceptor) (maxRetries : Nat)
    (env : Nat → FetchOutcome) :
    ∀ (fuel attempt : Nat) (rl : RateLimiter) (sleeps : List Nat)
      (ups : List (List (String × String))) (lastErr : Option BluefoxError),
      (executeRequestGo respI maxRetries env fuel attempt rl sleeps ups lastErr).attempts
        ≤ attempt + fuel := by
  intro fuel
  induction fuel with
  | zero => intro attempt rl sleeps ups lastErr; simp [executeRequestGo]
  | succ fuel ih =>
    intro attempt rl sleeps ups lastErr
    rw [go_succ]
    rcases hp : performRequest (env attempt) with e | r
    · simp only [hp]
      by_cases hs : shouldRetry maxRetries (normalizeError e) attempt = true
      · have := ih (attempt + 1) rl (sleeps ++ [delay attempt]) ups (some (normalizeError e))
        simp only [hs, if_true]
        omega
      · simp [hs]
    · rcases respI with _ | f
      · simp [hp]
      · rcases hf : f r with e2 | r2 <;> simp [hp, hf]


theorem go_attempts_ge (respI : Option RespInterceptor) (maxRetries : Nat)
    (env : Nat → FetchOutcome) :
    ∀ (fuel attempt : Nat) (rl : RateLimiter) (sleeps : List Nat)
      (ups : List (List (String × String))) (lastErr : Option BluefoxError),
      attempt ≤
        (executeRequestGo respI maxRetries env fuel attempt rl sleeps ups lastErr).attempts := by
  intro fuel
  induction fuel with
  | zero => intro attempt rl sleeps ups lastErr; simp [executeRequestGo]
  | succ fuel ih =>
    intro attempt rl sleeps ups lastErr
    rw [go_succ]
    rcases hp : performRequest (env attempt) with e | r
    · simp only [hp]
      by_cases hs : shouldRetry maxRetries (normalizeError e) attempt = true
      · have := ih (attempt + 1) rl (sleeps ++ [delay attempt]) ups (some (normalizeError e))
        simp only [hs, if_true]
        omega
      · simp [hs]
    · rcases respI with _ | f
      · simp [hp]
      · rcases hf : f r with e2 | r2 <;> simp [hp, hf]

theorem go_attempts_ge_one (respI : Option RespInterceptor) (maxRetries : Nat)
    (env : Nat → FetchOutcome) (fuel attempt : Nat) (rl : RateLimiter)
    (sleeps : List Nat) (ups : List (List (String × String)))
    (lastErr : Option BluefoxError) (hfuel : 1 ≤ fuel) :
    attempt + 1 ≤
      (executeRequestGo respI maxRetries env fuel attempt rl sleeps ups lastErr).attempts := by
  rcases fuel with _ | fuel
  · omega
  · rw [go_succ]
    rcases hp : performRequest (env attempt) with e | r
    · simp only [hp]
      by_cases hs : shouldRetry maxRetries (normalizeError e) attempt = true
      · have := go_attempts_ge respI maxRetries env fuel (attempt + 1) rl
          (sleeps ++ [delay attempt]) ups (some (normalizeError e))
        simp only [hs, if_true]
        omega
      · simp [hs]
    · rcases respI with _ | f
      · simp [hp]
      · rcases hf : f r with e2 | r2 <;> simp [hp, hf]

theorem go_retryable (respI : Option RespInterceptor) (maxRetries : Nat)
    (env : Nat → FetchOutcome) :
    ∀ (fuel attempt : Nat) (rl : RateLimiter) (sleeps : List Nat)
      (ups : List (List (String × String))) (lastErr : Option BluefoxError)
      (k : Nat), attempt ≤ k →
      k + 1 < (executeRequestGo respI maxRetries env fuel attempt rl sleeps ups lastErr).attempts →
      ∃ e, performRequest (env k) = .error e ∧
        ((normalizeError e).code = .SERVER_ERROR ∨ (normalizeError e).code = .NETWORK_ERROR) := by
  intro fuel
  induction fuel with
  | zero =>
    intro attempt rl sleeps ups lastErr k hak hk
    simp [executeRequestGo] at hk
    omega
  | succ fuel ih =>
    intro attempt rl sleeps ups lastErr k hak hk
    rw [go_succ] at hk
    rcases hp : performRequest (env attempt) with e | r
    · simp only [hp] at hk
      by_cases hs : shouldRetry maxRetries (normalizeError e) attempt = true
      · simp only [hs, if_true] at hk
        rcases Nat.eq_or_lt_of_le hak with rfl | hlt
        · refine ⟨e, hp, ?_⟩
          simp only [shouldRetry, Bool.and_eq_true, Bool.or_eq_true,
            decide_eq_true_eq] at hs
          exact hs.2
        · exact ih (attempt + 1) rl (sleeps ++ [delay attempt]) ups
            (some (normalizeError e)) k hlt hk
      · simp [hs] at hk
        omega
    · rcases respI with _ | f
      · simp [hp] at hk; omega
      · rcases hf : f r with e2 | r2 <;> simp [hp, hf] at hk <;> omega

theorem go_terminal (respI : Option RespInterceptor) (maxRetries : Nat)
    (env : Nat → FetchOutcome) :
    ∀ (fuel attempt : Nat) (rl : RateLimiter) (sleeps : List Nat)
      (ups : List (List (String × String))) (lastErr : Option BluefoxError)
      (k : Nat) (e : ThrownError), attempt ≤ k →
      k < (executeRequestGo respI maxRetries env fuel attempt rl sleeps ups lastErr).attempts →
      performRequest (env k) = .error e →
      ¬((normalizeError e).code = .SERVER_ERROR ∨ (normalizeError e).code = .NETWORK_ERROR) →
      (executeRequestGo respI maxRetries env fuel attempt rl sleeps ups lastErr).attempts = k + 1 ∧
      (executeRequestGo respI maxRetries env fuel attempt rl sleeps ups lastErr).result =
        .error (some (normalizeError e)) := by
  intro fuel
  induction fuel with
  | zero =>
    intro attempt rl sleeps ups lastErr k e hak hk hpe hcode
    simp [executeRequestGo] at hk
    omega
  | succ fuel ih =>
    intro attempt rl sleeps ups lastErr k e hak hk hpe hcode
    rw [go_succ] at hk ⊢
    rcases hp : performRequest (env attempt) with e0 | r
    · simp only [hp] at hk ⊢
      by_cases hs : shouldRetry maxRetries (normalizeError e0) attempt = true
      · simp only [hs, if_true] at hk ⊢
        rcases Nat.eq_or_lt_of_le hak with rfl | hlt
        · rw [hp] at hpe
          injection hpe with he
          subst he
          simp only [shouldRetry, Bool.and_eq_true, Bool.or_eq_true,
            decide_eq_true_eq] at hs
          exact absurd hs.2 hcode
        · exact ih (attempt + 1) rl (sleeps ++ [delay attempt]) ups
            (some (normalizeError e0)) k e hlt hk hpe hcode
      · simp only [hs, Bool.false_eq_true, if_false] at hk ⊢
        have hka : k = attempt := by omega
        subst hka
        rw [hp] at hpe
        injection hpe with he
        subst he
        simp
    · rcases respI with _ | f
      · simp [hp] at hk
        have hka : k = attempt := by omega
        subst hka
        rw [hp] at hpe
        exact absurd hpe (by simp)
      · rcases hf : f r with e2 | r2 <;> simp [hp, hf] at hk <;>
          (have hka : k = attempt := by omega) <;> subst hka <;>
          rw [hp] at hpe <;> exact absurd hpe (by simp)


theorem go_retry_continues (respI : Option RespInterceptor) (maxRetries : Nat)
    (env : Nat → FetchOutcome) :
    ∀ (fuel attempt : Nat) (rl : RateLimiter) (sleeps : List Nat)
      (ups : List (List (String × String))) (lastErr : Option BluefoxError)
      (k : Nat) (e : ThrownError),
      maxRetries = fuel + attempt → attempt ≤ k →
      k < (executeRequestGo respI maxRetries env fuel attempt rl sleeps ups lastErr).attempts →
      performRequest (env k) = .error e →
      shouldRetry maxRetries (normalizeError e) k = true →
      k + 2 ≤ (executeRequestGo respI maxRetries env fuel attempt rl sleeps ups lastErr).attempts := by
  intro fuel
  induction fuel with
  | zero =>
    intro attempt rl sleeps ups lastErr k e hinv hak hk hpe hsr
    simp [executeRequestGo] at hk
    omega
  | succ fuel ih =>
    intro attempt rl sleeps ups lastErr k e hinv hak hk hpe hsr
    rw [go_succ] at hk ⊢
    rcases hp : performRequest (env attempt) with e0 | r
    · simp only [hp] at hk ⊢
      by_cases hs : shouldRetry maxRetries (normalizeError e0) attempt = true
      · simp only [hs, if_true] at hk ⊢
        rcases Nat.eq_or_lt_of_le hak with rfl | hlt
        · have hge := go_attempts_ge_one respI maxRetries env fuel (attempt + 1) rl
            (sleeps ++ [delay attempt]) ups (some (normalizeError e0)) ?hf
          · omega
          · simp only [shouldRetry, Bool.and_eq_true, decide_eq_true_eq] at hs
            omega
        · exact ih (attempt + 1) rl (sleeps ++ [delay attempt]) ups
            (some (normalizeError e0)) k e (by omega) hlt hk hpe hsr
      · simp only [hs, Bool.false_eq_true, if_false] at hk ⊢
        have hka : k = attempt := by omega
        subst hka
        rw [hp] at hpe
        injection hpe with he
        subst he
        exact absurd hsr hs
    · rcases respI with _ | f
      · simp [hp] at hk ⊢
        have hka : k = attempt := by omega
        subst hka
        rw [hp] at hpe
        exact absurd hpe (by simp)
      · rcases hf : f r with e2 | r2 <;> simp [hp, hf] at hk ⊢ <;>
          (have hka : k = attempt := by omega) <;> subst hka <;>
          rw [hp] at hpe <;> exact absurd hpe (by simp)

theorem go_sleeps (respI : Option RespInterceptor) (maxRetries : Nat)
    (env : Nat → FetchOutcome) :
    ∀ (fuel attempt : Nat) (rl : RateLimiter) (sleeps : List Nat)
      (ups : List (List (String × String))) (lastErr : Option BluefoxError),
      maxRetries = fuel + attempt →
      (executeRequestGo respI maxRetries env fuel attempt rl sleeps ups lastErr).sleeps =
        sleeps ++ (List.range' attempt
          ((executeRequestGo respI maxRetries env fuel attempt rl sleeps ups lastErr).attempts
            - (attempt + 1))).map delay := by
  intro fuel
  induction fuel with
  | zero =>
    intro attempt rl sleeps ups lastErr hinv
    simp [executeRequestGo]
  | succ fuel ih =>
    intro attempt rl sleeps ups lastErr hinv
    rw [go_succ]
    rcases hp : performRequest (env attempt) with e | r
    · simp only [hp]
      by_cases hs : shouldRetry maxRetries (normalizeError e) attempt = true
      · simp only [hs, if_true]
        have hfuel : 1 ≤ fuel := by
          simp only [shouldRetry, Bool.and_eq_true, decide_eq_true_eq] at hs
          omega
        have hge := go_attempts_ge_one respI maxRetries env fuel (attempt + 1) rl
          (sleeps ++ [delay attempt]) ups (some (normalizeError e)) hfuel
        have heq := ih (attempt + 1) rl (sleeps ++ [delay attempt]) ups
          (some (normalizeError e)) (by omega)
        rw [heq]
        have hn : (executeRequestGo respI maxRetries env fuel (attempt + 1) rl
            (sleeps ++ [delay attempt]) ups (some (normalizeError e))).attempts
            - (attempt + 1) =
            ((executeRequestGo respI maxRetries env fuel (attempt + 1) rl
              (sleeps ++ [delay attempt]) ups (some (normalizeError e))).attempts
              - (attempt + 2)) + 1 := by omega
        rw [hn, List.range'_succ, List.map_cons]
        simp
      · simp [hs]
    · rcases respI with _ | f
      · simp [hp]
      · rcases hf : f r with e2 | r2 <;> simp [hp, hf]

theorem go_rlUpdates (respI : Option RespInterceptor) (maxRetries : Nat)
    (env : Nat → FetchOutcome) :
    ∀ (fuel attempt : Nat) (rl : RateLimiter) (sleeps : List Nat)
      (ups : List (List (String × String))) (lastErr : Option BluefoxError),
      (executeRequestGo respI maxRetries env fuel attempt rl sleeps ups lastErr).rlUpdates =
        ups ++ (List.range' attempt
          ((executeRequestGo respI maxRetries env fuel attempt rl sleeps ups lastErr).attempts
            - attempt)).filterMap (successHeaders env) := by
  intro fuel
  induction fuel with
  | zero =>
    intro attempt rl sleeps ups lastErr
    simp [executeRequestGo]
  | succ fuel ih =>
    intro attempt rl sleeps ups lastErr
    rw [go_succ]
    rcases hp : performRequest (env attempt) with e | r
    · simp only [hp]
      by_cases hs : shouldRetry maxRetries (normalizeError e) attempt = true
      · simp only [hs, if_true]
        have hge := go_attempts_ge respI maxRetries env fuel (attempt + 1) rl
          (sleeps ++ [delay attempt]) ups (some (normalizeError e))
        have heq := ih (attempt + 1) rl (sleeps ++ [delay attempt]) ups
          (some (normalizeError e))
        rw [heq]
        have hn : (executeRequestGo respI maxRetries env fuel (attempt + 1) rl
            (sleeps ++ [delay attempt]) ups (some (normalizeError e))).attempts
            - attempt =
            ((executeRequestGo respI maxRetries env fuel (attempt + 1) rl
              (sleeps ++ [delay attempt]) ups (some (normalizeError e))).attempts
              - (attempt + 1)) + 1 := by omega
        rw [hn, List.range'_succ, List.filterMap_cons]
        have hsh : successHeaders env attempt = none := by
          simp [successHeaders, hp]
        rw [hsh]
      · simp only [hs, Bool.false_eq_true, if_false]
        have hsh : successHeaders env attempt = none := by
          simp [successHeaders, hp]
        simp [hsh]
    · have hsh : successHeaders env attempt = some r.headers := by
        simp [successHeaders, hp]
      rcases respI with _ | f
      · simp [hp, hsh]
      · rcases hf : f r with e2 | r2 <;> simp [hp, hf, hsh]


theorem request_cases (reqI : Option (Except ThrownError Unit))
    (respI : Option RespInterceptor) (cfgMaxRetries : Option Nat)
    (rl : RateLimiter) (now : Int) (env : Nat → FetchOutcome) :
    request reqI respI cfgMaxRetries rl now env =
      executeRequest respI (effMaxRetries cfgMaxRetries) env rl ∨
    ((request reqI respI cfgMaxRetries rl now env).attempts = 0 ∧
     (request reqI respI cfgMaxRetries rl now env).sleeps = [] ∧
     (request reqI respI cfgMaxRetries rl now env).rlUpdates = []) := by
  rcases reqI with _ | exc
  · simp only [request]
    rcases rl.checkRateLimit now with _ | err
    · exact Or.inl rfl
    · exact Or.inr ⟨rfl, rfl, rfl⟩
  · rcases exc with e | u
    · exact Or.inr ⟨rfl, rfl, rfl⟩
    · simp only [request]
      rcases rl.checkRateLimit now with _ | err
      · exact Or.inl rfl
      · exact Or.inr ⟨rfl, rfl, rfl⟩

/-- C1: a single call performs at most `effMaxRetries` (default 3) network
attempts; an attempt beyond the first happens only when the previous
attempt's classified error is SERVER_ERROR or NETWORK_ERROR; every other
classified error is returned as Err immediately, ending the call at that
attempt. -/
theorem request_retry_policy (reqI : Option (Except ThrownError Unit))
    (respI : Option RespInterceptor) (cfgMaxRetries : Option Nat)
    (rl : RateLimiter) (now : Int) (env : Nat → FetchOutcome) :
    (request reqI respI cfgMaxRetries rl now env).attempts ≤ effMaxRetries cfgMaxRetries ∧
    effMaxRetries none = 3 ∧
    (∀ k, k + 1 < (request reqI respI cfgMaxRetries rl now env).attempts →
      ∃ e, performRequest (env k) = .error e ∧
        ((normalizeError e).code = .SERVER_ERROR ∨ (normalizeError e).code = .NETWORK_ERROR)) ∧
    (∀ k e, k < (request reqI respI cfgMaxRetries rl now env).attempts →
      performRequest (env k) = .error e →
      ¬((normalizeError e).code = .SERVER_ERROR ∨ (normalizeError e).code = .NETWORK_ERROR) →
      (request reqI respI cfgMaxRetries rl now env).attempts = k + 1 ∧
      (request reqI respI cfgMaxRetries rl now env).result =
        .error (some (normalizeError e))) := by
  rcases request_cases reqI respI cfgMaxRetries rl now env with heq | ⟨h0, hs0, hu0⟩
  · rw [heq]
    refine ⟨?_, rfl, ?_, ?_⟩
    · simpa using go_attempts_le respI (effMaxRetries cfgMaxRetries) env
        (effMaxRetries cfgMaxRetries) 0 rl [] [] none
    · intro k hk
      exact go_retryable respI (effMaxRetries cfgMaxRetries) env
        (effMaxRetries cfgMaxRetries) 0 rl [] [] none k (Nat.zero_le k) hk
    · intro k e hk hpe hcode
      exact go_terminal respI (effMaxRetries cfgMaxRetries) env
        (effMaxRetries cfgMaxRetries) 0 rl [] [] none k e (Nat.zero_le k) hk hpe hcode
  · refine ⟨by omega, rfl, ?_, ?_⟩
    · intro k hk
      omega
    · intro k e hk _ _
      exact absurd hk (by omega)

/-- C8: the backoff sleeps of one call are, in order, exactly
`min(1000 * 2 ^ k, 10000)` milliseconds for the retried attempts
`k = 0, 1, ...`; the final attempt sleeps nothing. -/
theorem request_backoff_schedule (reqI : Option (Except ThrownError Unit))
    (respI : Option RespInterceptor) (cfgMaxRetries : Option Nat)
    (rl : RateLimiter) (now : Int) (env : Nat → FetchOutcome) :
    (request reqI respI cfgMaxRetries rl now env).sleeps =
      (List.range ((request reqI respI cfgMaxRetries rl now env).attempts - 1)).map
        (fun k => min (1000 * 2 ^ k) 10000) := by
  have hdelay : (fun k => min (1000 * 2 ^ k) 10000) = delay := rfl
  rw [hdelay]
  rcases request_cases reqI respI cfgMaxRetries rl now env with heq | ⟨h0, hs0, hu0⟩
  · rw [heq]
    have := go_sleeps respI (effMaxRetries cfgMaxRetries) env
      (effMaxRetries cfgMaxRetries) 0 rl [] [] none (by omega)
    simpa [List.range_eq_range'] using this
  · rw [hs0, h0]
    simp

/-- C4 counterexample: every attempt of this call receives an HTTP 500
response carrying rate-limit headers, yet `updateFromHeaders` is never
invoked and the limiter state is unchanged — the limiter is not updated
after every response. -/
theorem rl_not_updated_on_error_response_cex :
    (executeRequest none 3 (fun _ => .response
      { status := 500, statusText := "Internal Server Error",
        headers := [("x-ratelimit-remaining", "0"), ("x-ratelimit-reset", "4102444800")],
        jsonBody := some {} }) {}).attempts = 3 ∧
    (executeRequest none 3 (fun _ => .response
      { status := 500, statusText := "Internal Server Error",
        headers := [("x-ratelimit-remaining", "0"), ("x-ratelimit-reset", "4102444800")],
        jsonBody := some {} }) {}).rlUpdates = [] ∧
    (executeRequest none 3 (fun _ => .response
      { status := 500, statusText := "Internal Server Error",
        headers := [("x-ratelimit-remaining", "0"), ("x-ratelimit-reset", "4102444800")],
        jsonBody := some {} }) {}).rl = {} := by
  decide

/-- C4 amended: the RateLimiter is updated (via `updateFromHeaders`, with
that response's headers) exactly for the attempts whose fetch produced a
2xx response with a JSON-parseable body; non-2xx responses, network errors,
aborts and 2xx parse failures never update it. -/
theorem request_rl_update_policy (reqI : Option (Except ThrownError Unit))
    (respI : Option RespInterceptor) (cfgMaxRetries : Option Nat)
    (rl : RateLimiter) (now : Int) (env : Nat → FetchOutcome) :
    (request reqI respI cfgMaxRetries rl now env).rlUpdates =
      (List.range ((request reqI respI cfgMaxRetries rl now env).attempts)).filterMap
        (successHeaders env) ∧
    (∀ k r, env k = .response r → r.ok = false → successHeaders env k = none) ∧
    (∀ k r b, env k = .response r → r.ok = true → r.jsonBody = some b →
      successHeaders env k = some r.headers) ∧
    (∀ k r, env k = .response r → r.ok = true → r.jsonBody = none →
      successHeaders env k = none) ∧
    (∀ k msg, env k = .netError msg → successHeaders env k = none) ∧
    (∀ k, env k = .abort → successHeaders env k = none) := by
  refine ⟨?_, ?_, ?_, ?_, ?_, ?_⟩
  · rcases request_cases reqI respI cfgMaxRetries rl now env with heq | ⟨h0, hs0, hu0⟩
    · rw [heq]
      have := go_rlUpdates respI (effMaxRetries cfgMaxRetries) env
        (effMaxRetries cfgMaxRetries) 0 rl [] [] none
      simpa [List.range_eq_range'] using this
    · rw [hu0, h0]
      simp
  · intro k r henv hok
    simp [successHeaders, performRequest, henv, hok]
  · intro k r b henv hok hbody
    simp [successHeaders, performRequest, henv, hok, hbody]
  · intro k r henv hok hbody
    simp [successHeaders, performRequest, henv, hok, hbody]
  · intro k msg henv
    simp [successHeaders, performRequest, henv]
  · intro k henv
    simp [successHeaders, performRequest, henv]


/-- C2 counterexample: the first attempt receives a 2xx response whose body
is not valid JSON; the call does not terminate with an Err there — it
retries, and the second attempt succeeds.  The parse failure is classified
NETWORK_ERROR (a retryable code), contradicting the claim that it is
terminal. -/
theorem parse_failure_not_terminal_cex :
    (executeRequest none 3 (fun k =>
      if k = 0 then .response { status := 200, statusText := "OK", jsonBody := none }
      else .response { status := 200, statusText := "OK", jsonBody := some {} }) {}).attempts
      = 2 ∧
    (executeRequest none 3 (fun k =>
      if k = 0 then .response { status := 200, statusText := "OK", jsonBody := none }
      else .response { status := 200, statusText := "OK", jsonBody := some {} }) {}).result
      = .ok { status := 200, statusText := "OK", jsonBody := some {} } ∧
    performRequest (.response { status := 200, statusText := "OK", jsonBody := none })
      = .error (.jsError "Unexpected end of JSON input") ∧
    (normalizeError (.jsError "Unexpected end of JSON input")).code = .NETWORK_ERROR := by
  decide

/-- C2 amended: a 2xx response whose body fails to parse as JSON makes the
attempt throw a generic error that `normalizeError` classifies as
NETWORK_ERROR (status 0); since NETWORK_ERROR is retryable, the call
retries whenever attempts remain (it returns Err only from the last
allowed attempt). -/
theorem parse_failure_retried (respI : Option RespInterceptor) (maxRetries : Nat)
    (env : Nat → FetchOutcome) (rl : RateLimiter) (k : Nat) (r : RawResponse)
    (henv : env k = .response r) (hok : r.ok = true) (hbody : r.jsonBody = none)
    (hreach : k < (executeRequest respI maxRetries env rl).attempts)
    (hleft : k + 1 < maxRetries) :
    performRequest (env k) = .error (.jsError "Unexpected end of JSON input") ∧
    (normalizeError (.jsError "Unexpected end of JSON input")).code = .NETWORK_ERROR ∧
    (normalizeError (.jsError "Unexpected end of JSON input")).status = 0 ∧
    k + 2 ≤ (executeRequest respI maxRetries env rl).attempts := by
  have hperf : performRequest (env k) = .error (.jsError "Unexpected end of JSON input") := by
    simp [performRequest, henv, hok, hbody]
  refine ⟨hperf, rfl, rfl, ?_⟩
  refine go_retry_continues respI maxRetries env maxRetries 0 rl [] [] none k
    (.jsError "Unexpected end of JSON input") (by omega) (Nat.zero_le k) hreach hperf ?_
  simp [shouldRetry, normalizeError, hleft]

/-- C3: with `remaining <= 0` and the current time strictly before `reset`,
a call entering `request` (whose request interceptor, if any, does not
throw) returns Err with `BluefoxError.rateLimit reset` — code
RATE_LIMIT_ERROR, status 429, the reset timestamp in details — performing
no network attempt, no sleep and no limiter mutation; in every other
limiter state `checkRateLimit` returns normally (and never writes the
state). -/
theorem request_rate_limit_gate (reqI : Option (Except ThrownError Unit))
    (respI : Option RespInterceptor) (cfgMaxRetries : Option Nat)
    (rl : RateLimiter) (now : Int) (env : Nat → FetchOutcome)
    (hreq : reqI = none ∨ reqI = some (.ok ())) :
    ((rl.remaining.le0 = true ∧ rl.reset.gtInt now = true) →
      (request reqI respI cfgMaxRetries rl now env).result =
        .error (some (BluefoxError.rateLimit rl.reset)) ∧
      (BluefoxError.rateLimit rl.reset).code = .RATE_LIMIT_ERROR ∧
      (BluefoxError.rateLimit rl.reset).status = 429 ∧
      (BluefoxError.rateLimit rl.reset).details = .reset rl.reset ∧
      (request reqI respI cfgMaxRetries rl now env).attempts = 0 ∧
      (request reqI respI cfgMaxRetries rl now env).sleeps = [] ∧
      (request reqI respI cfgMaxRetries rl now env).rl = rl) ∧
    (¬(rl.remaining.le0 = true ∧ rl.reset.gtInt now = true) →
      rl.checkRateLimit now = none) := by
  constructor
  · rintro ⟨hrem, hreset⟩
    have hc : rl.checkRateLimit now = some (BluefoxError.rateLimit rl.reset) := by
      simp [RateLimiter.checkRateLimit, hrem, hreset]
    have hres : request reqI respI cfgMaxRetries rl now env =
        { result := .error (some (BluefoxError.rateLimit rl.reset)), attempts := 0,
          sleeps := [], rlUpdates := [], rl := rl } := by
      rcases hreq with rfl | rfl <;> simp [request, hc, normalizeError]
    rw [hres]
    exact ⟨rfl, rfl, rfl, rfl, rfl, rfl, rfl⟩
  · intro hnot
    simp only [RateLimiter.checkRateLimit]
    by_cases hrem : rl.remaining.le0 = true
    · have hreset : rl.reset.gtInt now = false := by
        rcases h : rl.reset.gtInt now with _ | _
        · rfl
        · exact absurd ⟨hrem, h⟩ hnot
      simp [hrem, hreset]
    · simp [hrem]


/-- C5 counterexample: calling `updateFromHeaders` with no rate-limit
headers does not keep the previous field values — `limit` and `remaining`
are overwritten with `parseInt("Infinity", 10) = NaN` and `reset` with 0. -/
theorem updateFromHeaders_overwrites_cex :
    RateLimiter.updateFromHeaders
      { limit := .int 10, remaining := .int 5, reset := .int 7000 } [] =
      { limit := .nan, remaining := .nan, reset := .int 0 } ∧
    JsNum.nan ≠ JsNum.int 5 := by
  decide

/-- C5 amended: a missing `x-ratelimit-limit`/`x-ratelimit-remaining`
header sets the field to NaN (which never triggers the rate-limit check,
so it acts as unbounded) rather than keeping the previous value; a missing
reset header sets `reset` to 0; a present reset value that parses as an
integer number of seconds is stored as epoch milliseconds; the update is a
total function, raising no error on malformed values. -/
theorem updateFromHeaders_policy (st : RateLimiter)
    (headers : List (String × String)) (now : Int) (n : Int) (s : String) :
    (lookupHeader headers "x-ratelimit-limit" = none →
      (st.updateFromHeaders headers).limit = .nan) ∧
    (lookupHeader headers "x-ratelimit-remaining" = none →
      (st.updateFromHeaders headers).remaining = .nan ∧
      (st.updateFromHeaders headers).checkRateLimit now = none) ∧
    (lookupHeader headers "x-ratelimit-reset" = none →
      (st.updateFromHeaders headers).reset = .int 0) ∧
    (lookupHeader headers "x-ratelimit-reset" = some s → jsParseInt s = .int n →
      (st.updateFromHeaders headers).reset = .int (n * 1000)) := by
  have hinf : jsParseInt "Infinity" = .nan := by decide
  have hzero : jsParseInt "0" = .int 0 := by decide
  refine ⟨?_, ?_, ?_, ?_⟩
  · intro h
    simp [RateLimiter.updateFromHeaders, h, jsOrS, hinf]
  · intro h
    constructor
    · simp [RateLimiter.updateFromHeaders, h, jsOrS, hinf]
    · simp [RateLimiter.checkRateLimit, RateLimiter.updateFromHeaders, h, jsOrS,
        hinf, JsNum.le0]
  · intro h
    simp [RateLimiter.updateFromHeaders, h, jsOrS, hzero, JsNum.mulNat]
  · intro h hparse
    by_cases hs : s = ""
    · subst hs
      rw [show jsParseInt "" = .nan from by decide] at hparse
      exact absurd hparse (by simp)
    · simp [RateLimiter.updateFromHeaders, h, jsOrS, hs, hparse, JsNum.mulNat]

/-- C6: the status-to-code fallback mapping is exactly the claimed table
(429 ↦ RATE_LIMIT_ERROR, 401/403 ↦ AUTHENTICATION_ERROR,
405 ↦ METHOD_NOT_ALLOWED, 400 ↦ VALIDATION_ERROR, ≥500 ↦ SERVER_ERROR,
otherwise UNKNOWN_ERROR), and when the error body carries no recognized
structured error name, `createErrorFromResponse` classifies solely by that
mapping, preserving the response status. -/
theorem error_classification_mapping (status : Nat) (r : RawResponse)
    (hname : ∀ nm, (effectiveBody r).errorName = some nm →
      nm ≠ "VALIDATION_ERROR" ∧ nm ≠ "METHOD_NOT_ALLOWED") :
    getErrorCodeFromStatus 429 = .RATE_LIMIT_ERROR ∧
    getErrorCodeFromStatus 401 = .AUTHENTICATION_ERROR ∧
    getErrorCodeFromStatus 403 = .AUTHENTICATION_ERROR ∧
    getErrorCodeFromStatus 405 = .METHOD_NOT_ALLOWED ∧
    getErrorCodeFromStatus 400 = .VALIDATION_ERROR ∧
    (500 ≤ status → getErrorCodeFromStatus status = .SERVER_ERROR) ∧
    (¬(status = 429 ∨ status = 401 ∨ status = 403 ∨ status = 405 ∨ status = 400 ∨
        500 ≤ status) →
      getErrorCodeFromStatus status = .UNKNOWN_ERROR) ∧
    (createErrorFromResponse r).code = getErrorCodeFromStatus r.status ∧
    (createErrorFromResponse r).status = r.status := by
  refine ⟨by decide, by decide, by decide, by decide, by decide, ?_, ?_, ?_⟩
  · intro h
    simp only [getErrorCodeFromStatus]
    rw [if_neg (by omega), if_neg (by omega), if_neg (by omega), if_neg (by omega),
      if_pos h]
  · intro h
    simp only [getErrorCodeFromStatus]
    rw [if_neg (by omega), if_neg (by omega), if_neg (by omega), if_neg (by omega),
      if_neg (by omega)]
  · rcases hb : (effectiveBody r).errorName with _ | nm
    · constructor <;> simp [createErrorFromResponse, hb]
    · obtain ⟨h1, h2⟩ := hname nm hb
      by_cases hnm : nm = ""
      · constructor <;> simp [createErrorFromResponse, hb, hnm]
      · constructor <;> simp [createErrorFromResponse, hb, hnm, h1, h2]

/-- C7: `validateRequiredFields` throws a VALIDATION_ERROR listing exactly
the falsy-valued keys whenever one exists, returns normally when all values
are truthy, and in particular `subscriber.add(listId, "", "a@b.com")`
throws a VALIDATION_ERROR naming `name` before any request is made. -/
theorem validateRequiredFields_spec (fields : List (String × JsValue)) :
    ((∃ kv ∈ fields, kv.2.truthy = false) →
      validateRequiredFields fields =
        some (BluefoxError.validation ("Missing required fields: " ++
          String.intercalate ", "
            ((fields.filter (fun kv => !kv.2.truthy)).map Prod.fst))) ∧
      ∀ msg, (BluefoxError.validation msg).code = .VALIDATION_ERROR) ∧
    ((∀ kv ∈ fields, kv.2.truthy = true) → validateRequiredFields fields = none) ∧
    subscriberAddValidation "list-123" "" "a@b.com" =
      some (BluefoxError.validation "Missing required fields: name") := by
  refine ⟨?_, ?_, by decide⟩
  · rintro ⟨kv, hmem, hfalsy⟩
    refine ⟨?_, fun msg => rfl⟩
    have hin : kv ∈ fields.filter (fun kv => !kv.2.truthy) :=
      List.mem_filter.2 ⟨hmem, by simp [hfalsy]⟩
    have hne : (fields.filter (fun kv => !kv.2.truthy)).length > 0 :=
      List.length_pos.2 (List.ne_nil_of_mem hin)
    simp only [validateRequiredFields]
    rw [if_pos (by simpa using hne)]
  · intro h
    have hnil : fields.filter (fun kv => !kv.2.truthy) = [] := by
      rw [List.filter_eq_nil_iff]
      intro kv hmem
      simp [h kv hmem]
    simp [validateRequiredFields, hnil]

end BluefoxModule

namespace BluefoxWebhooks

open BluefoxModule

/-- C9: once validation and parsing succeed, `handleWebhook` returns the
parsed event; a throwing handler's error is recorded in the log and never
propagated, and when no handler is registered for the event type none is
invoked and the event is still returned. -/
theorem handleWebhook_swallows_handler_errors (configApiKey : String)
    (apiKeyOverride : Option String) (validApiKeys : Option (List String))
    (handlers : String → Option Handler) (req : WebhookRequest)
    (event : WebhookEvent)
    (hval : validateWebhook configApiKey apiKeyOverride validApiKeys req = .ok true)
    (hbody : req.body = some event) :
    (handleWebhook configApiKey apiKeyOverride validApiKeys handlers req).result =
      .ok event ∧
    (handlers event.type = none →
      (handleWebhook configApiKey apiKeyOverride validApiKeys handlers req).handlerInvoked
        = false) ∧
    (∀ h msg, handlers event.type = some h → h event = .error msg →
      (handleWebhook configApiKey apiKeyOverride validApiKeys handlers
        req).handlerErrorLogged = some msg ∧
      (handleWebhook configApiKey apiKeyOverride validApiKeys handlers
        req).handlerInvoked = true) := by
  have hparse : parseWebhookEvent req = .ok event := by
    simp [parseWebhookEvent, hbody]
  rcases hh : handlers event.type with _ | h
  · refine ⟨?_, fun _ => ?_, ?_⟩
    · simp [handleWebhook, hval, hparse, hh]
    · simp [handleWebhook, hval, hparse, hh]
    · intro h msg hcontra
      simp [hh] at hcontra
  · rcases hr : h event with msg | u
    · refine ⟨?_, fun hcontra => by simp [hh] at hcontra, ?_⟩
      · simp [handleWebhook, hval, hparse, hh, hr]
      · intro h2 msg2 hh2 hr2
        injection hh2 with he
        subst he
        rw [hr] at hr2
        injection hr2 with hm
        subst hm
        constructor <;> simp [handleWebhook, hval, hparse, hh, hr]
    · refine ⟨?_, fun hcontra => by simp [hh] at hcontra, ?_⟩
      · simp [handleWebhook, hval, hparse, hh, hr]
      · intro h2 msg2 hh2 hr2
        injection hh2 with he
        subst he
        rw [hr] at hr2
        cases hr2

/-- C10: with a truthy primary key, `validateWebhook` throws SERVER_ERROR
(status 400, not AUTHENTICATION_ERROR) when the Authorization header is
absent or carries no token after the scheme; it throws
AUTHENTICATION_ERROR with status 400 (not 401) when the token is not in
the valid key set; and it returns `true` exactly when the bearer token is
a member of the valid key set (the rotation list when given, else the
override-or-configured key). -/
theorem validateWebhook_auth_spec (configApiKey : String)
    (apiKeyOverride : Option String) (validApiKeys : Option (List String))
    (req : WebhookRequest)
    (hkey : jsOrS apiKeyOverride configApiKey ≠ "") :
    ((headerApiKey req.authHeader = none ∨ headerApiKey req.authHeader = some "") →
      ∃ e, validateWebhook configApiKey apiKeyOverride validApiKeys req = .error e ∧
        e.code = .SERVER_ERROR ∧ e.status = 400) ∧
    (∀ tok, headerApiKey req.authHeader = some tok → tok ≠ "" →
      tok ∉ validKeySet (jsOrS apiKeyOverride configApiKey) validApiKeys →
      ∃ e, validateWebhook configApiKey apiKeyOverride validApiKeys req = .error e ∧
        e.code = .AUTHENTICATION_ERROR ∧ e.status = 400) ∧
    (validateWebhook configApiKey apiKeyOverride validApiKeys req = .ok true ↔
      ∃ tok, headerApiKey req.authHeader = some tok ∧ tok ≠ "" ∧
        tok ∈ validKeySet (jsOrS apiKeyOverride configApiKey) validApiKeys) := by
  have hv : validateRequiredFields
      [("apiKey", JsValue.str (jsOrS apiKeyOverride configApiKey)),
       ("request", JsValue.obj)] = none := by
    simp [validateRequiredFields, JsValue.truthy, hkey]
  refine ⟨?_, ?_, ?_⟩
  · intro h
    refine ⟨{ code := .SERVER_ERROR, message := "No API key found in request headers",
              status := 400, details := .request }, ?_, rfl, rfl⟩
    rcases h with h | h <;> simp [validateWebhook, hv, h]
  · intro tok htok hne hmem
    refine ⟨{ code := .AUTHENTICATION_ERROR, message := "Invalid API key",
              status := 400, details := .request }, ?_, rfl, rfl⟩
    simp [validateWebhook, hv, htok, hne, hmem]
  · constructor
    · intro hok
      rcases htok : headerApiKey req.authHeader with _ | tok
      · simp [validateWebhook, hv, htok] at hok
      · by_cases hne : tok = ""
        · subst hne
          simp [validateWebhook, hv, htok] at hok
        · simp [validateWebhook, hv, htok, hne] at hok
          exact ⟨tok, rfl, hne, hok⟩
    · rintro ⟨tok, htok, hne, hmem⟩
      simp [validateWebhook, hv, htok, hne, hmem]


end BluefoxWebhooks

namespace BluefoxModule

/-- Witness for `request_retry_policy`: a concrete call whose first attempt
returns HTTP 500 and whose second succeeds; the retryable-classification
clause is instantiated at attempt 0. -/
theorem request_retry_policy_witness :
    (request none none (some 3) {} 0 (fun k =>
      if k = 0 then
        FetchOutcome.response
          { status := 500, statusText := "Internal Server Error",
            jsonBody := some {} }
      else
        FetchOutcome.response
          { status := 200, statusText := "OK", jsonBody := some {} })).attempts ≤ effMaxRetries (some 3) ∧
    (∃ e, performRequest ((fun k =>
      if k = 0 then
        FetchOutcome.response
          { status := 500, statusText := "Internal Server Error",
            jsonBody := some {} }
      else
        FetchOutcome.response
          { status := 200, statusText := "OK", jsonBody := some {} }) 0) = .error e ∧
      ((normalizeError e).code = .SERVER_ERROR ∨
        (normalizeError e).code = .NETWORK_ERROR)) := by
  have h := request_retry_policy none none (some 3) {} 0 (fun k =>
    if k = 0 then
      FetchOutcome.response
        { status := 500, statusText := "Internal Server Error",
          jsonBody := some {} }
    else
      FetchOutcome.response
        { status := 200, statusText := "OK", jsonBody := some {} })
  exact ⟨h.1, h.2.2.1 0 (by decide)⟩

/-- Witness for `parse_failure_retried`: attempt 0 receives a 2xx response
with an unparseable body and the call goes on to a second attempt. -/
theorem parse_failure_retried_witness :
    performRequest ((fun k =>
      if k = 0 then
        FetchOutcome.response
          { status := 200, statusText := "OK", jsonBody := none }
      else
        FetchOutcome.response
          { status := 200, statusText := "OK", jsonBody := some {} }) 0) =
      .error (.jsError "Unexpected end of JSON input") ∧
    (normalizeError (.jsError "Unexpected end of JSON input")).code = .NETWORK_ERROR ∧
    (normalizeError (.jsError "Unexpected end of JSON input")).status = 0 ∧
    0 + 2 ≤ (executeRequest none 3 (fun k =>
      if k = 0 then
        FetchOutcome.response
          { status := 200, statusText := "OK", jsonBody := none }
      else
        FetchOutcome.response
          { status := 200, statusText := "OK", jsonBody := some {} }) {}).attempts :=
  parse_failure_retried none 3 (fun k =>
      if k = 0 then
        FetchOutcome.response
          { status := 200, statusText := "OK", jsonBody := none }
      else
        FetchOutcome.response
          { status := 200, statusText := "OK", jsonBody := some {} }) {} 0
    { status := 200, statusText := "OK", jsonBody := none }
    rfl (by decide) rfl (by decide) (by decide)

/-- Witness for `request_rate_limit_gate`: a limiter with `remaining = 0`
and `reset = 10000` at time 5000 fails fast with the rate-limit error and
zero attempts. -/
theorem request_rate_limit_gate_witness :
    (request none none none { remaining := .int 0, reset := .int 10000 } 5000
      (fun _ => FetchOutcome.abort)).result =
      .error (some (BluefoxError.rateLimit (JsNum.int 10000))) ∧
    (request none none none { remaining := .int 0, reset := .int 10000 } 5000
      (fun _ => FetchOutcome.abort)).attempts = 0 := by
  have h := (request_rate_limit_gate none none none
    { remaining := .int 0, reset := .int 10000 } 5000 (fun _ => FetchOutcome.abort)
    (Or.inl rfl)).1 ⟨by decide, by decide⟩
  exact ⟨h.1, h.2.2.2.2.1⟩

/-- Witness for `request_rl_update_policy`: a call whose single attempt
gets a 500 response performs no limiter update (`successHeaders` is `none`
for that attempt). -/
theorem request_rl_update_policy_witness :
    (request none none (some 1) {} 0 (fun _ => FetchOutcome.response
      { status := 500, statusText := "Internal Server Error",
        headers := [("x-ratelimit-remaining", "0")], jsonBody := some {} })).rlUpdates =
      (List.range ((request none none (some 1) {} 0 (fun _ => FetchOutcome.response
        { status := 500, statusText := "Internal Server Error",
          headers := [("x-ratelimit-remaining", "0")],
          jsonBody := some {} })).attempts)).filterMap
        (successHeaders (fun _ => FetchOutcome.response
          { status := 500, statusText := "Internal Server Error",
            headers := [("x-ratelimit-remaining", "0")], jsonBody := some {} })) ∧
    successHeaders (fun _ => FetchOutcome.response
      { status := 500, statusText := "Internal Server Error",
        headers := [("x-ratelimit-remaining", "0")], jsonBody := some {} }) 0 =
      none := by
  have h := request_rl_update_policy none none (some 1) {} 0
    (fun _ => FetchOutcome.response
      { status := 500, statusText := "Internal Server Error",
        headers := [("x-ratelimit-remaining", "0")], jsonBody := some {} })
  exact ⟨h.1, h.2.1 0 _ rfl (by decide)⟩

/-- Witness for `updateFromHeaders_policy`: with only a reset header of
"60" seconds, `limit` becomes NaN and `reset` becomes 60000 ms. -/
theorem updateFromHeaders_policy_witness :
    (RateLimiter.updateFromHeaders {} [("x-ratelimit-reset", "60")]).limit = .nan ∧
    (RateLimiter.updateFromHeaders {} [("x-ratelimit-reset", "60")]).reset =
      .int (60 * 1000) := by
  have h := updateFromHeaders_policy {} [("x-ratelimit-reset", "60")] 0 60 "60"
  exact ⟨h.1 (by decide), h.2.2.2 (by decide) (by decide)⟩

/-- Witness for `error_classification_mapping`: the ≥500 clause at 503, the
fallthrough clause at 418, and the no-structured-name clause for a 404
response with an empty JSON body. -/
theorem error_classification_mapping_witness :
    getErrorCodeFromStatus 503 = .SERVER_ERROR ∧
    getErrorCodeFromStatus 418 = .UNKNOWN_ERROR ∧
    (createErrorFromResponse
      { status := 404, statusText := "Not Found", jsonBody := some {} }).code =
      getErrorCodeFromStatus 404 := by
  have h1 := error_classification_mapping 503
    { status := 404, statusText := "Not Found", jsonBody := some {} }
    (by intro nm hnm; exact Option.noConfusion hnm)
  have h2 := error_classification_mapping 418
    { status := 404, statusText := "Not Found", jsonBody := some {} }
    (by intro nm hnm; exact Option.noConfusion hnm)
  exact ⟨h1.2.2.2.2.2.1 (by omega), h2.2.2.2.2.2.2.1 (by decide),
    h1.2.2.2.2.2.2.2.1⟩

/-- Witness for `validateRequiredFields_spec`: the `subscriber.add`
field map with an empty name throws, and an all-truthy map passes. -/
theorem validateRequiredFields_spec_witness :
    validateRequiredFields [("subscriberListId", .str "list-123"),
      ("name", .str ""), ("email", .str "a@b.com")] =
      some (BluefoxError.validation ("Missing required fields: " ++
        String.intercalate ", " (([("subscriberListId", JsValue.str "list-123"),
          ("name", JsValue.str ""), ("email", JsValue.str "a@b.com")].filter
          (fun kv => !kv.2.truthy)).map Prod.fst))) ∧
    validateRequiredFields [("subscriberListId", .str "x"), ("email", .str "y")] =
      none := by
  have h := validateRequiredFields_spec [("subscriberListId", .str "list-123"),
    ("name", .str ""), ("email", .str "a@b.com")]
  have h2 := validateRequiredFields_spec [("subscriberListId", .str "x"),
    ("email", .str "y")]
  exact ⟨(h.1 (by decide)).1, h2.2.1 (by decide)⟩

end BluefoxModule

namespace BluefoxWebhooks

/-- Witness for `handleWebhook_swallows_handler_errors`: a valid request
whose registered handler throws "boom"; the event is still returned and
the error only logged. -/
theorem handleWebhook_swallows_handler_errors_witness :
    (handleWebhook "k1" none none (fun ty =>
      if ty = "open" then some (fun _ => Except.error "boom") else none)
      { authHeader := some "Bearer k1", body := some { type := "open" } }).result =
      .ok { type := "open" } ∧
    (handleWebhook "k1" none none (fun ty =>
      if ty = "open" then some (fun _ => Except.error "boom") else none)
      { authHeader := some "Bearer k1",
        body := some { type := "open" } }).handlerErrorLogged = some "boom" := by
  have h := handleWebhook_swallows_handler_errors "k1" none none
    (fun ty => if ty = "open" then some (fun _ => Except.error "boom") else none)
    { authHeader := some "Bearer k1", body := some { type := "open" } }
    { type := "open" } (by decide) rfl
  exact ⟨h.1, (h.2.2 (fun _ => Except.error "boom") "boom" rfl rfl).1⟩

/-- Witness for `validateWebhook_auth_spec`: with rotation keys
["k1", "k2"], the token "k3" is rejected with AUTHENTICATION_ERROR and the
token "k2" is accepted. -/
theorem validateWebhook_auth_spec_witness :
    (∃ e, validateWebhook "k1" none (some ["k1", "k2"])
      { authHeader := some "Bearer k3" } = .error e ∧
      e.code = .AUTHENTICATION_ERROR ∧ e.status = 400) ∧
    validateWebhook "k1" none (some ["k1", "k2"])
      { authHeader := some "Bearer k2" } = .ok true := by
  have h := validateWebhook_auth_spec "k1" none (some ["k1", "k2"])
    { authHeader := some "Bearer k3" } (by decide)
  have h2 := validateWebhook_auth_spec "k1" none (some ["k1", "k2"])
    { authHeader := some "Bearer k2" } (by decide)
  refine ⟨h.2.1 "k3" (by decide) (by decide) (by decide), ?_⟩
  exact h2.2.2.mpr ⟨"k2", by decide, by decide, by decide⟩

end BluefoxWebhooks
end Bluefox
